import Mathlib

/-!
# CompanionBot — verification of the specification against the source

Shallow embedding of the subsystems of the CompanionBot repository that the
frozen claims talk about:

* `src/utils/tokens.ts` — bilingual token estimator (`estimateTokens`);
* the retry module (`withRetry`, `getRetryAfterMs`, `isTransientError`);
* the LLM orchestrator (`calculateTokenBudgets`, the tool-use loop of `chat`);
* `src/memory/embeddings.ts` — `cosineSimilarity`, `splitIntoChunks`,
  `combineWithRRF` / `calculateRRFScore`;
* `src/cron/store.ts` — `addJob`, `markJobExecuted`, `calculateCronNextRun`,
  `parseCronField`, `getDueJobs`.

JavaScript `number` arithmetic on the small integers involved is exact, so it
is modelled with `Nat`/`Int`/`Rat`; the float factors 0.3/0.5/0.7/1.5 multiply
integers far below the range where double rounding could move a floor or ceil
across an integer boundary, so exact rational arithmetic is faithful.
External effects (the LLM, the clock, `Intl` timezone data, the file system)
are passed in as explicit parameters or oracle functions.
-/

namespace CompanionBot

/-! ## UTF-16 helpers

JavaScript strings are sequences of UTF-16 code units: `text.length`,
`charCodeAt` and regexp character classes all work on code units.  Lean
strings are sequences of code points, so we expand astral code points into
surrogate pairs where the source's semantics depends on it. -/

/-- The UTF-16 code units of one code point (surrogate pair for astral planes). -/
def charUtf16Units (c : Char) : List Nat :=
  if c.toNat < 0x10000 then [c.toNat]
  else
    let v := c.toNat - 0x10000
    [0xD800 + v / 0x400, 0xDC00 + v % 0x400]

/-- All UTF-16 code units of a string, in order. -/
def utf16Units (s : String) : List Nat :=
  s.toList.flatMap charUtf16Units

/-- JavaScript `string.length` (number of UTF-16 code units). -/
def jsLength (s : String) : Nat :=
  (utf16Units s).length

/-! ## §4.D Token estimator — `estimateTokens` (src/utils/tokens.ts 20–25)

```ts
const koreanChars = (text.match(/[ㄱ-힝]/g) || []).length;
const otherChars = text.length - koreanChars;
return Math.ceil(koreanChars * 1.5 + otherChars / 4);
```
The character class matches exactly the UTF-16 code units in the closed
interval `[0x3131, 0xD79D]` (surrogate units, 0xD800–0xDFFF, lie above it, so
astral characters contribute two `otherChars`). -/

/-- Count of UTF-16 code units matched by `/[ㄱ-힝]/g`. -/
def koreanCharCount (text : String) : Nat :=
  ((utf16Units text).filter (fun u => 0x3131 ≤ u && u ≤ 0xD79D)).length

/-- Model of `estimateTokens` (src/utils/tokens.ts): `koreanChars` are the
regex matches, `otherChars = text.length - koreanChars`, result
`Math.ceil(koreanChars * 1.5 + otherChars / 4)`. -/
def estimateTokens (text : String) : Int :=
  ⌈(koreanCharCount text : ℚ) * (3/2) +
    ((jsLength text - koreanCharCount text : Nat) : ℚ) / 4⌉

/-- The claim's formula: `koreanChars` counts exactly the code points in the
Hangul ranges — Jamo (U+1100–U+11FF), Compatibility Jamo (U+3130–U+318F)
and Syllables (U+AC00–U+D7A3); every remaining code unit is `otherChars`. -/
def hangulCharCountClaim (text : String) : Nat :=
  ((utf16Units text).filter (fun u =>
    (0x1100 ≤ u && u ≤ 0x11FF) ||
    (0x3130 ≤ u && u ≤ 0x318F) ||
    (0xAC00 ≤ u && u ≤ 0xD7A3))).length

/-- `estimateTokens` as the claim C9 words it. -/
def estimateTokensClaim (text : String) : Int :=
  ⌈(hangulCharCountClaim text : ℚ) * (3/2) +
    ((jsLength text - hangulCharCountClaim text : Nat) : ℚ) / 4⌉

end CompanionBot

namespace CompanionBot

/-- C9 counterexample: the CJK ideograph 中 (U+4E2D) is not a Hangul
character, yet the source's character class `[ㄱ-힝]` counts it as
Korean: the code yields `ceil(1.5) = 2` where the claim's formula yields
`ceil(1/4) = 1`.  (Likewise the Hangul syllable 힣 U+D7A3 lies outside the
source's range.) -/
theorem estimateTokens_claim_counterexample :
    estimateTokens "中" = 2 ∧ estimateTokensClaim "中" = 1 := by
  have h1 : koreanCharCount "中" = 1 := rfl
  have h2 : hangulCharCountClaim "中" = 0 := rfl
  have h3 : jsLength "中" = 1 := rfl
  constructor
  · rw [estimateTokens, h1, h3, Int.ceil_eq_iff]; norm_num
  · rw [estimateTokensClaim, h2, h3, Int.ceil_eq_iff]; norm_num

/-- Count of the UTF-16 code units the source's regex does not match. -/
def nonKoreanCharCount (text : String) : Nat :=
  ((utf16Units text).filter (fun u => !(0x3131 ≤ u && u ≤ 0xD79D))).length

/-- C9 (amended): `estimateTokens text = ceil(1.5·k + o/4)` where `k` counts
the UTF-16 code units in the single range U+3131–U+D79D (the source's regex,
which includes CJK ideographs and excludes the Hangul syllables above U+D79D)
and `o` counts all remaining code units; and `estimateTokens "" = 0`. -/
theorem estimateTokens_spec (text : String) :
    estimateTokens text =
      ⌈(koreanCharCount text : ℚ) * (3/2) + (nonKoreanCharCount text : ℚ) / 4⌉ ∧
    estimateTokens "" = 0 := by
  have hsplit : jsLength text = koreanCharCount text + nonKoreanCharCount text := by
    unfold jsLength koreanCharCount nonKoreanCharCount
    exact List.length_eq_length_filter_add (fun u => 0x3131 ≤ u && u ≤ 0xD79D)
  have h2 : jsLength text - koreanCharCount text = nonKoreanCharCount text := by
    omega
  refine ⟨?_, ?_⟩
  · rw [estimateTokens, h2]
  · rw [estimateTokens]
    have h0 : koreanCharCount "" = 0 := rfl
    have h1 : jsLength "" = 0 := rfl
    rw [h0, h1, Int.ceil_eq_iff]; norm_num

end CompanionBot

namespace CompanionBot

/-! ## §4.F Dynamic budgeting — `calculateTokenBudgets`
(src/unnamed/part_008 lines 105–141)

`MODELS`, `THINKING_CONFIGS`, `MIN_OUTPUT_TOKENS = 4096`,
`OUTPUT_BUFFER_RATIO = 0.3`.  All models have a 200 000-token context window;
only `haiku` lacks extended thinking. -/

/-- The three model identifiers of the orchestrator. -/
inductive ModelId where
  | sonnet | opus | haiku
deriving DecidableEq

/-- Per-model configuration (`MODELS` table). -/
structure ModelConfig where
  contextWindow : Int
  supportsThinking : Bool

/-- `MODELS` (src/unnamed/part_008 lines 72–91). -/
def MODELS : ModelId → ModelConfig
  | .haiku => ⟨200000, false⟩
  | .sonnet => ⟨200000, true⟩
  | .opus => ⟨200000, true⟩

/-- Thinking levels. -/
inductive ThinkingLevel where
  | off | low | medium | high
deriving DecidableEq

/-- Per-level configuration (`THINKING_CONFIGS`): ratio and budget cap. -/
structure ThinkingConfig where
  ratio : ℚ
  maxBudget : Int

/-- `THINKING_CONFIGS` (src/unnamed/part_008 lines 64–69). -/
def THINKING_CONFIGS : ThinkingLevel → ThinkingConfig
  | .off => ⟨0, 0⟩
  | .low => ⟨3/10, 5000⟩
  | .medium => ⟨1/2, 10000⟩
  | .high => ⟨7/10, 20000⟩

/-- Model of `calculateTokenBudgets` (src/unnamed/part_008 lines 105–141).
Returns `(maxTokens, thinkingBudget)`. -/
def calculateTokenBudgets (modelId : ModelId) (thinkingLevel : ThinkingLevel)
    (inputTokens : Int) : Int × Int :=
  let model := MODELS modelId
  let thinkingConfig := THINKING_CONFIGS thinkingLevel
  if ¬ model.supportsThinking ∨ thinkingLevel = .off then
    (8192, 0)
  else
    let availableOutputTokens : Int := model.contextWindow - inputTokens
    let maxTokens : Int := max 4096 ⌊(availableOutputTokens : ℚ) * (3/10)⌋
    let calculatedBudget : Int := ⌊(maxTokens : ℚ) * thinkingConfig.ratio⌋
    let thinkingBudget : Int :=
      min thinkingConfig.maxBudget (min calculatedBudget (maxTokens - 1024))
    if thinkingBudget < 1024 then (maxTokens, 0) else (maxTokens, thinkingBudget)

/-- The budget computation exactly as claim C3 words it, written from the
claim's sentences: level table low(0.3, 5000), medium(0.5, 10000),
high(0.7, 20000); `maxTokens = max(4096, ⌊(W − I)·0.3⌋)`;
`thinkingBudget = min(levelCap, ⌊maxTokens·levelRatio⌋, maxTokens − 1024)`,
zeroed below 1024; otherwise the fixed `(8192, 0)`. -/
def calculateTokenBudgetsC3 (modelId : ModelId) (thinkingLevel : ThinkingLevel)
    (inputTokens : Int) : Int × Int :=
  let levelRatio : ℚ :=
    match thinkingLevel with
    | .off => 0 | .low => 3/10 | .medium => 1/2 | .high => 7/10
  let levelCap : Int :=
    match thinkingLevel with
    | .off => 0 | .low => 5000 | .medium => 10000 | .high => 20000
  if (MODELS modelId).supportsThinking ∧ thinkingLevel ≠ .off then
    let w : Int := (MODELS modelId).contextWindow
    let maxTokens : Int := max 4096 ⌊((w - inputTokens : Int) : ℚ) * (3/10)⌋
    let budget : Int :=
      min levelCap (min ⌊(maxTokens : ℚ) * levelRatio⌋ (maxTokens - 1024))
    if budget < 1024 then (maxTokens, 0) else (maxTokens, budget)
  else
    (8192, 0)

/-- C3: for every model, thinking level and input-token estimate, the source's
`calculateTokenBudgets` computes exactly the budgets the claim describes. -/
theorem calculateTokenBudgets_spec (modelId : ModelId)
    (thinkingLevel : ThinkingLevel) (inputTokens : Int) :
    calculateTokenBudgets modelId thinkingLevel inputTokens =
      calculateTokenBudgetsC3 modelId thinkingLevel inputTokens := by
  cases modelId <;> cases thinkingLevel <;>
    simp [calculateTokenBudgets, calculateTokenBudgetsC3, MODELS, THINKING_CONFIGS]

end CompanionBot

namespace CompanionBot

/-! ## Retry module (src/utils/tokens.ts, second part: retry.ts)

`isTransientError`, `getRetryAfterMs`, `withRetry`.  A thrown value is either
an Anthropic `APIError` (status and a `retry-after` header) or a plain
`Error` with a message. -/

/-- A thrown JavaScript error, as the retry module distinguishes them. -/
inductive JsError where
  | api (status : Int) (retryAfterHeader : Option String) (message : String)
  | plain (message : String)

/-- ASCII model of JS `toLowerCase` (the retry module only compares ASCII
keywords). -/
def jsToLower (s : String) : String :=
  s.map Char.toLower

/-- JS `String.prototype.includes`. -/
def jsIncludes (s pat : String) : Bool :=
  decide (List.IsInfix pat.toList s.toList)

/-- JS whitespace recognised by `parseInt` and `trim` (ASCII subset plus
NBSP/BOM; the source never feeds exotic Unicode spaces to these). -/
def jsIsWhitespace (c : Char) : Bool :=
  c = ' ' || c = '\t' || c = '\n' || c = '\r' ||
  c = '\x0b' || c = '\x0c' || c = ' ' || c = '﻿'

/-- JS `parseInt(s, 10)`: skip leading whitespace, optional sign, then the
longest digit prefix; `NaN` (here `none`) when no digit follows. -/
def jsParseInt (s : String) : Option Int :=
  let cs := s.toList.dropWhile jsIsWhitespace
  let signAndRest : Int × List Char :=
    match cs with
    | '-' :: t => (-1, t)
    | '+' :: t => (1, t)
    | t => (1, t)
  let digits := signAndRest.2.takeWhile Char.isDigit
  if digits.isEmpty then none
  else
    some (signAndRest.1 *
      (digits.foldl (fun acc c => acc * 10 + (c.toNat - '0'.toNat)) 0 : Nat))

/-- Model of `isTransientError` (retry module). -/
def isTransientError : JsError → Bool
  | .api status _ _ =>
    if status = 429 then true
    else if 500 ≤ status ∧ status < 600 then true
    else if status = 408 then true
    else if status = 502 ∨ status = 503 ∨ status = 504 then true
    else false
  | .plain message =>
    let msg := jsToLower message
    jsIncludes msg "econnreset" || jsIncludes msg "econnrefused" ||
    jsIncludes msg "etimedout" || jsIncludes msg "enotfound" ||
    jsIncludes msg "epipe" || jsIncludes msg "socket hang up" ||
    jsIncludes msg "network" ||
    jsIncludes msg "timeout" || jsIncludes msg "timed out" ||
    jsIncludes msg "temporarily unavailable" || jsIncludes msg "try again" ||
    jsIncludes msg "rate limit" || jsIncludes msg "429"

/-- Model of `getRetryAfterMs`: only an `APIError` with status 429 and a
truthy (non-empty) `retry-after` header that parses as an integer yields
`seconds * 1000`. -/
def getRetryAfterMs : JsError → Option Int
  | .api status retryAfterHeader _ =>
    if status = 429 then
      match retryAfterHeader with
      | some h =>
        if h = "" then none
        else
          match jsParseInt h with
          | some seconds => some (seconds * 1000)
          | none => none
      | none => none
    else none
  | .plain _ => none

/-- Retry options after the `{...DEFAULT_RETRY_OPTIONS, ...options}` merge. -/
structure RetryOptionsR where
  maxRetries : Nat
  initialDelayMs : Int
  maxDelayMs : Int
  backoffMultiplier : Int
  shouldRetry : Option (JsError → Bool)

/-- `DEFAULT_RETRY_OPTIONS` — also the effective value of the orchestrator's
`API_RETRY_OPTIONS` (maxRetries 3, initial 1 s, cap 30 s, ×2). -/
def DEFAULT_RETRY_OPTIONS : RetryOptionsR :=
  ⟨3, 1000, 30000, 2, none⟩

/-- What a `withRetry` run did: its outcome, how many times it invoked the
operation, and the sleeps it performed, in order. -/
structure RetryResult (α : Type) where
  result : Except JsError α
  calls : Nat
  sleeps : List Int

/-- The `for (attempt = 0; attempt <= maxRetries; attempt++)` loop of
`withRetry`.  `fuel` counts the remaining loop iterations
(`maxRetries + 1 − attempt`); the fuel-0 case is the dead `throw lastError`
after the loop. -/
def withRetryGo {α : Type} (op : Nat → Except JsError α) (opts : RetryOptionsR)
    (shouldRetry : JsError → Bool) :
    Nat → Nat → Int → List Int → Option JsError → RetryResult α
  | 0, attempt, _delay, sleeps, lastError =>
    ⟨.error (lastError.getD (.plain "undefined")), attempt, sleeps⟩
  | fuel + 1, attempt, delay, sleeps, _lastError =>
    match op attempt with
    | .ok v => ⟨.ok v, attempt + 1, sleeps⟩
    | .error e =>
      if opts.maxRetries ≤ attempt ∨ shouldRetry e = false then
        ⟨.error e, attempt + 1, sleeps⟩
      else
        let retryAfter := getRetryAfterMs e
        let actualDelay : Int := retryAfter.getD delay
        let cappedDelay : Int := min actualDelay opts.maxDelayMs
        let nextDelay : Int :=
          if retryAfter.isSome then delay
          else min (delay * opts.backoffMultiplier) opts.maxDelayMs
        withRetryGo op opts shouldRetry fuel (attempt + 1) nextDelay
          (sleeps ++ [cappedDelay]) (some e)

/-- Model of `withRetry` (retry module): the n-th invocation of the operation
is `op n`. -/
def withRetry {α : Type} (op : Nat → Except JsError α)
    (opts : RetryOptionsR) : RetryResult α :=
  withRetryGo op opts (opts.shouldRetry.getD isTransientError)
    (opts.maxRetries + 1) 0 opts.initialDelayMs [] none

end CompanionBot

namespace CompanionBot

/-- A 429 `APIError` with `Retry-After: 2` yields a 2000 ms retry delay. -/
theorem getRetryAfterMs_429_2 (m : String) :
    getRetryAfterMs (.api 429 (some "2") m) = some 2000 := rfl

/-- A 429 `APIError` is classified transient. -/
theorem isTransientError_429 (h : Option String) (m : String) :
    isTransientError (.api 429 h m) = true := rfl

/-- C4: an operation that fails twice with HTTP 429 carrying `Retry-After: 2`
and then succeeds is invoked exactly 3 times under `withRetry` with the
default options; both sleeps are exactly the 2000 ms from `Retry-After`
(which takes precedence over the 1 s/×2/30 s exponential backoff, and is
≥ 2 s), and the successful payload is returned. -/
theorem withRetry_429_spec {α : Type} (v : α) (m0 m1 : String)
    (op : Nat → Except JsError α)
    (h0 : op 0 = .error (.api 429 (some "2") m0))
    (h1 : op 1 = .error (.api 429 (some "2") m1))
    (h2 : op 2 = .ok v) :
    withRetry op DEFAULT_RETRY_OPTIONS = ⟨.ok v, 3, [2000, 2000]⟩ ∧
    ∀ s ∈ (withRetry op DEFAULT_RETRY_OPTIONS).sleeps, 2000 ≤ s := by
  have hrun : withRetry op DEFAULT_RETRY_OPTIONS = ⟨.ok v, 3, [2000, 2000]⟩ := by
    unfold withRetry DEFAULT_RETRY_OPTIONS
    simp only [withRetryGo, h0, h1, h2, getRetryAfterMs_429_2, isTransientError_429,
      Option.getD]
    norm_num [withRetryGo, Option.isSome]
  refine ⟨hrun, ?_⟩
  rw [hrun]
  intro s hs
  simp only [List.mem_cons, List.mem_singleton, List.not_mem_nil, or_false] at hs
  rcases hs with h | h <;> simp [h]

/-- Concrete operation for the C4 witness: two 429 failures with
`Retry-After: 2`, then success. -/
def opC4 : Nat → Except JsError Nat := fun n =>
  if n = 0 then .error (.api 429 (some "2") "rate limited")
  else if n = 1 then .error (.api 429 (some "2") "rate limited")
  else .ok 42

/-- C4 witness: the scenario evaluated at a concrete operation. -/
theorem withRetry_429_witness :
    withRetry opC4 DEFAULT_RETRY_OPTIONS = ⟨.ok 42, 3, [2000, 2000]⟩ ∧
    ∀ s ∈ (withRetry opC4 DEFAULT_RETRY_OPTIONS).sleeps, 2000 ≤ s :=
  withRetry_429_spec 42 "rate limited" "rate limited" opC4 rfl rfl rfl

end CompanionBot

namespace CompanionBot

/-! ## §4.F The tool-use loop — `chat` (src/unnamed/part_008 lines 154–332)

The LLM and the tool executor are external effects: the model's n-th reply is
`responses n`, and `exec name input` is the (compressed or `Error: …`) string
a tool call produces — the `Promise.all` fan-out delivers these results in
the order of the `tool_use` blocks.  Everything else (block filtering,
message construction, the iteration guard, the summary records) is modelled
from the source. -/

/-- `MAX_TOOL_ITERATIONS` (src/unnamed/part_009 line 87). -/
def MAX_TOOL_ITERATIONS : Nat := 10

/-- `TOOL_INPUT_SUMMARY_LENGTH` (src/unnamed/part_009 line 131). -/
def TOOL_INPUT_SUMMARY_LENGTH : Nat := 200

/-- `TOOL_OUTPUT_SUMMARY_LENGTH` (src/unnamed/part_009 line 133). -/
def TOOL_OUTPUT_SUMMARY_LENGTH : Nat := 500

/-- JS `s.slice(0, n)` — keep the first `n` UTF-16 code units (a final code
point that would be cut in half is dropped). -/
def jsSliceChars : Nat → List Char → List Char
  | _, [] => []
  | n, c :: cs =>
    let u := (charUtf16Units c).length
    if u ≤ n then c :: jsSliceChars (n - u) cs else []

/-- JS `s.slice(0, n)` on strings. -/
def jsSlice0 (s : String) (n : Nat) : String :=
  ⟨jsSliceChars n s.toList⟩

/-- A content block of an assistant message.  Tool inputs only ever appear
via `JSON.stringify`, so they are carried as their JSON string. -/
inductive ContentBlock where
  | text (text : String)
  | thinking (thinking : String)
  | toolUse (id name input : String)
deriving DecidableEq

/-- A `tool_result` block of the user message answering a tool round. -/
structure ToolResultBlock where
  tool_use_id : String
  content : String
deriving DecidableEq

/-- Message content: a plain string, assistant content blocks, or the
`tool_result` list of a tool-round user message. -/
inductive MessageContent where
  | str (s : String)
  | blocks (bs : List ContentBlock)
  | toolResults (rs : List ToolResultBlock)
deriving DecidableEq

/-- Message roles. -/
inductive Role where
  | user | assistant
deriving DecidableEq

/-- One entry of `apiMessages`. -/
structure MessageParam where
  role : Role
  content : MessageContent
deriving DecidableEq

/-- One LLM reply: stop reason and content blocks. -/
structure ApiResponse where
  stop_reason : String
  content : List ContentBlock
deriving DecidableEq

/-- A recorded tool-use summary (name, truncated input, truncated output). -/
structure ToolUseSummary where
  name : String
  input : String
  output : String
deriving DecidableEq

/-- The `tool_use` blocks of a response's content, in emission order
(`content.filter(block => block.type === "tool_use")`). -/
def toolUseBlocksOf (bs : List ContentBlock) : List (String × String × String) :=
  bs.filterMap fun b =>
    match b with
    | .toolUse id name input => some (id, name, input)
    | _ => none

/-- The ordered `tool_result` list a tool round produces: one block per
`tool_use`, keyed by the original id, in the same order. -/
def toolResultsFor (exec : String → String → String)
    (bs : List ContentBlock) : List ToolResultBlock :=
  (toolUseBlocksOf bs).map fun t => ⟨t.1, exec t.2.1 t.2.2⟩

/-- The summaries a tool round appends to `toolsUsed`. -/
def summariesFor (exec : String → String → String)
    (bs : List ContentBlock) : List ToolUseSummary :=
  (toolUseBlocksOf bs).map fun t =>
    ⟨t.2.1, jsSlice0 t.2.2 TOOL_INPUT_SUMMARY_LENGTH,
      jsSlice0 (exec t.2.1 t.2.2) TOOL_OUTPUT_SUMMARY_LENGTH⟩

/-- What a `chat` run left behind: completed tool rounds, the working
message list, the accumulated summaries, and the last LLM response. -/
structure ChatTrace where
  iterations : Nat
  messages : List MessageParam
  toolsUsed : List ToolUseSummary
  finalResponse : ApiResponse

/-- The `while (response.stop_reason === "tool_use" && iterations <
MAX_TOOL_ITERATIONS)` loop.  `fuel = MAX_TOOL_ITERATIONS − iterations` is the
number of rounds the guard still allows, so `fuel = 0` is exactly
`iterations < MAX_TOOL_ITERATIONS` failing. -/
def chatLoopGo (responses : Nat → ApiResponse) (exec : String → String → String) :
    Nat → Nat → Nat → ApiResponse → List MessageParam → List ToolUseSummary →
    ChatTrace
  | 0, iterations, _callIdx, resp, msgs, used => ⟨iterations, msgs, used, resp⟩
  | fuel + 1, iterations, callIdx, resp, msgs, used =>
    if resp.stop_reason = "tool_use" then
      chatLoopGo responses exec fuel (iterations + 1) (callIdx + 1)
        (responses (callIdx + 1))
        (msgs ++ [⟨.assistant, .blocks resp.content⟩,
                  ⟨.user, .toolResults (toolResultsFor exec resp.content)⟩])
        (used ++ summariesFor exec resp.content)
    else
      ⟨iterations, msgs, used, resp⟩

/-- The value `chat` returns. -/
structure ChatResultM where
  text : String
  toolsUsed : List ToolUseSummary
deriving DecidableEq

/-- The fixed assistant message returned when the tool loop hits the cap. -/
def tooManyToolCallsText : String := "도구 실행이 너무 많이 반복됐어. 다시 시도해줄래?"

/-- The fallback text when the final response has no text block. -/
def noResponseText : String := "응답을 생성하지 못했어. 다시 시도해줄래?"

/-- The tool-use loop of `chat`, entered with the first response, zero
completed iterations and no recorded summaries. -/
def chatTrace (responses : Nat → ApiResponse) (exec : String → String → String)
    (initialMessages : List MessageParam) : ChatTrace :=
  chatLoopGo responses exec MAX_TOOL_ITERATIONS 0 0 (responses 0)
    initialMessages []

/-- The `textBlock?.text ?? fallback` extraction after the loop. -/
def finalText (t : ChatTrace) : String :=
  match t.finalResponse.content.find? fun b =>
      match b with | .text _ => true | _ => false with
  | some (.text s) => s
  | _ => noResponseText

/-- Model of `chat` (src/unnamed/part_008 lines 154–332): run the tool-use
loop from the first response, then either return the fixed too-many-tools
message (when the iteration cap was reached) or the first text block of the
final response. -/
def chat (responses : Nat → ApiResponse) (exec : String → String → String)
    (initialMessages : List MessageParam) : ChatTrace × ChatResultM :=
  if MAX_TOOL_ITERATIONS ≤ (chatTrace responses exec initialMessages).iterations then
    (chatTrace responses exec initialMessages,
     ⟨tooManyToolCallsText, (chatTrace responses exec initialMessages).toolsUsed⟩)
  else
    (chatTrace responses exec initialMessages,
     ⟨finalText (chatTrace responses exec initialMessages),
      (chatTrace responses exec initialMessages).toolsUsed⟩)

/-- The two messages one tool round appends: the assistant message verbatim,
then the user message holding the ordered `tool_result` blocks. -/
def roundPair (exec : String → String → String)
    (content : List ContentBlock) : List MessageParam :=
  [⟨.assistant, .blocks content⟩,
   ⟨.user, .toolResults (toolResultsFor exec content)⟩]

end CompanionBot

namespace CompanionBot

/-- Every tool round answers the `tool_use` ids in emission order. -/
theorem toolResultsFor_ids (exec : String → String → String)
    (bs : List ContentBlock) :
    (toolResultsFor exec bs).map ToolResultBlock.tool_use_id
      = (toolUseBlocksOf bs).map (fun t => t.1) := by
  simp [toolResultsFor, List.map_map]

/-- The loop only ever appends whole rounds to the working message list. -/
theorem chatLoopGo_messages (responses : Nat → ApiResponse)
    (exec : String → String → String) :
    ∀ fuel iterations callIdx resp msgs used,
      ∃ rounds : List (List ContentBlock),
        (chatLoopGo responses exec fuel iterations callIdx resp msgs
            used).messages
          = msgs ++ rounds.flatMap (roundPair exec) := by
  intro fuel
  induction fuel with
  | zero =>
    intro iterations callIdx resp msgs used
    exact ⟨[], by simp [chatLoopGo]⟩
  | succ n ih =>
    intro iterations callIdx resp msgs used
    by_cases h : resp.stop_reason = "tool_use"
    · obtain ⟨rounds, hr⟩ := ih (iterations + 1) (callIdx + 1)
        (responses (callIdx + 1))
        (msgs ++ roundPair exec resp.content)
        (used ++ summariesFor exec resp.content)
      refine ⟨resp.content :: rounds, ?_⟩
      rw [chatLoopGo, if_pos h]
      simpa [roundPair, List.append_assoc] using hr
    · exact ⟨[], by rw [chatLoopGo, if_neg h]; simp⟩

/-- C1: the tool-use loop appends matched assistant/user pairs to the working
history: after the initial messages, the history is a concatenation of
rounds, and in each round the user message carries exactly one `tool_result`
per `tool_use` block of the assistant message, keyed by the original ids in
emission order — even though the tools themselves run in parallel. -/
theorem chat_tool_results_aligned (responses : Nat → ApiResponse)
    (exec : String → String → String) (init : List MessageParam) :
    ∃ rounds : List (List ContentBlock),
      (chat responses exec init).1.messages
        = init ++ rounds.flatMap (roundPair exec) ∧
      ∀ c ∈ rounds,
        (toolResultsFor exec c).length = (toolUseBlocksOf c).length ∧
        (toolResultsFor exec c).map ToolResultBlock.tool_use_id
          = (toolUseBlocksOf c).map (fun t => t.1) := by
  obtain ⟨rounds, hr⟩ := chatLoopGo_messages responses exec
    MAX_TOOL_ITERATIONS 0 0 (responses 0) init []
  refine ⟨rounds, ?_, ?_⟩
  · have h1 : (chat responses exec init).1
        = chatLoopGo responses exec MAX_TOOL_ITERATIONS 0 0 (responses 0)
            init [] := by
      unfold chat
      split
      · rfl
      · rfl
    rw [h1, hr]
  · intro c _
    exact ⟨by simp [toolResultsFor], toolResultsFor_ids exec c⟩

/-- The loop performs at most `fuel` further rounds. -/
theorem chatLoopGo_iterations_le (responses : Nat → ApiResponse)
    (exec : String → String → String) :
    ∀ fuel iterations callIdx resp msgs used,
      (chatLoopGo responses exec fuel iterations callIdx resp msgs
          used).iterations ≤ iterations + fuel := by
  intro fuel
  induction fuel with
  | zero =>
    intro iterations callIdx resp msgs used
    simp [chatLoopGo]
  | succ n ih =>
    intro iterations callIdx resp msgs used
    rw [chatLoopGo]
    split
    · calc (chatLoopGo responses exec n (iterations + 1) (callIdx + 1)
            (responses (callIdx + 1)) _ _).iterations
          ≤ (iterations + 1) + n := ih _ _ _ _ _
        _ = iterations + (n + 1) := by omega
    · simp

/-- C2: the tool-use loop of `chat` performs at most `MAX_TOOL_ITERATIONS`
(10) iterations, and when the cap is hit `chat` returns the fixed
"too many tool calls" assistant text together with the accumulated tool-use
summaries. -/
theorem chat_iterations_bound (responses : Nat → ApiResponse)
    (exec : String → String → String) (init : List MessageParam) :
    (chat responses exec init).1.iterations ≤ MAX_TOOL_ITERATIONS ∧
    ((chat responses exec init).1.iterations = MAX_TOOL_ITERATIONS →
      (chat responses exec init).2
        = ⟨tooManyToolCallsText, (chat responses exec init).1.toolsUsed⟩) := by
  have h1 : (chat responses exec init).1
      = chatLoopGo responses exec MAX_TOOL_ITERATIONS 0 0 (responses 0)
          init [] := by
    unfold chat chatTrace
    split
    · rfl
    · rfl
  constructor
  · rw [h1]
    simpa using chatLoopGo_iterations_le responses exec
      MAX_TOOL_ITERATIONS 0 0 (responses 0) init []
  · intro hmax
    rw [h1] at hmax
    unfold chat chatTrace
    split
    · rfl
    · next hcond =>
      exact absurd (le_of_eq hmax.symm) hcond

/-- The C2 witness script: the model asks for a tool on every reply. -/
def respC2 : Nat → ApiResponse :=
  fun _ => ⟨"tool_use", [.toolUse "toolu_1" "read_file" "\x7b\x7d"]⟩

/-- The C2 witness executor. -/
def execC2 : String → String → String := fun _ _ => "ok"

/-- C2 witness: a script that never stops calling tools hits the cap after
exactly 10 iterations and yields the fixed message with the 10 summaries. -/
theorem chat_iterations_bound_witness :
    (chat respC2 execC2 []).1.iterations = MAX_TOOL_ITERATIONS ∧
    (chat respC2 execC2 []).2
      = ⟨tooManyToolCallsText, (chat respC2 execC2 []).1.toolsUsed⟩ :=
  ⟨by decide, (chat_iterations_bound respC2 execC2 []).2 (by decide)⟩

end CompanionBot

namespace CompanionBot

/-! ## §4.B `cosineSimilarity` (src/memory/embeddings.ts 174–203)

JS doubles are modelled by real numbers (exact arithmetic); `Math.sqrt` is
`Real.sqrt`.  The function is therefore noncomputable in Lean — concrete
instances are evaluated by `norm_num`. -/

/-- `Σ a[i]·b[i]` over the common prefix — the loop
`for (i = 0; i < a.length; i++) dotProduct += a[i] * b[i]` (the function has
already checked `a.length === b.length` when it runs). -/
noncomputable def dotList (a b : List ℝ) : ℝ :=
  ((a.zip b).map fun p => p.1 * p.2).sum

/-- Model of `cosineSimilarity(a, b, normalized = true)`:
null/empty and length-mismatch guards return 0; with `normalized` the raw
dot product is returned; otherwise the dot product divided by the product of
the norms (0 when that denominator is 0). -/
noncomputable def cosineSimilarity (a b : List ℝ) (normalized : Bool) : ℝ :=
  if a.length = 0 ∨ b.length = 0 then 0
  else if a.length ≠ b.length then 0
  else if normalized then dotList a b
  else
    let denominator := Real.sqrt (dotList a a) * Real.sqrt (dotList b b)
    if denominator = 0 then 0 else dotList a b / denominator

/-- `dotList` as a `Finset.range` sum over the common length. -/
theorem dotList_eq_sum (a : List ℝ) :
    ∀ b : List ℝ, dotList a b =
      ∑ i ∈ Finset.range (min a.length b.length),
        a.getD i 0 * b.getD i 0 := by
  induction a with
  | nil => intro b; simp [dotList]
  | cons x xs ih =>
    intro b
    cases b with
    | nil => simp [dotList]
    | cons y ys =>
      have h := ih ys
      simp only [dotList, List.zip_cons_cons, List.map_cons, List.sum_cons,
        List.length_cons, Nat.succ_min_succ, Finset.sum_range_succ']
      simp only [dotList] at h
      simp [h]
      ring

/-- Cauchy–Schwarz for the dot product of equally long lists. -/
theorem dotList_sq_le (a b : List ℝ) (hlen : a.length = b.length) :
    (dotList a b) ^ 2 ≤ dotList a a * dotList b b := by
  rw [dotList_eq_sum a b, dotList_eq_sum a a, dotList_eq_sum b b, hlen,
    min_self]
  have h := Finset.sum_mul_sq_le_sq_mul_sq (Finset.range b.length)
    (fun i => a.getD i 0) (fun i => b.getD i 0)
  simpa [sq] using h

/-- C7 counterexample: with the default `normalized = true` the function
returns the raw dot product, which for the (non-unit) vectors `a = b = [2]`
is `4 ∉ [−1, 1]`. -/
theorem cosineSimilarity_claim_counterexample :
    cosineSimilarity [2] [2] true = 4 ∧ 1 < cosineSimilarity [2] [2] true := by
  have h : cosineSimilarity [2] [2] true = 4 := by
    norm_num [cosineSimilarity, dotList]
  exact ⟨h, by rw [h]; norm_num⟩

/-- C7 (amended): for unit-normalized vectors of equal dimension the result
equals their dot product under both flags (`normalized = false` divides by
`√1·√1 = 1`), and that value lies in `[−1, 1]`; the `[−1, 1]` bound does not
hold for arbitrary vectors under the default `normalized = true`. -/
theorem cosineSimilarity_unit_spec (a b : List ℝ) (normalized : Bool)
    (hlen : a.length = b.length) (hne : a ≠ [])
    (ha : dotList a a = 1) (hb : dotList b b = 1) :
    cosineSimilarity a b normalized = dotList a b ∧
    -1 ≤ dotList a b ∧ dotList a b ≤ 1 := by
  have hsq : (dotList a b) ^ 2 ≤ 1 := by
    have := dotList_sq_le a b hlen
    rw [ha, hb] at this
    simpa using this
  have habs : |dotList a b| ≤ 1 := by
    rw [← sq_abs] at hsq
    nlinarith [abs_nonneg (dotList a b)]
  have hla : a.length ≠ 0 := fun h => hne (List.length_eq_zero.mp h)
  have hlb : b.length ≠ 0 := by rw [← hlen]; exact hla
  refine ⟨?_, (abs_le.mp habs).1, (abs_le.mp habs).2⟩
  unfold cosineSimilarity
  rw [if_neg (by push_neg; exact ⟨hla, hlb⟩), if_neg (by simp [hlen])]
  cases normalized with
  | true => rfl
  | false =>
    simp only [Bool.false_eq_true, if_false, ha, hb, Real.sqrt_one, mul_one]
    rw [if_neg one_ne_zero, div_one]

/-- C7 witness: the unit vectors `a = b = [1]`. -/
theorem cosineSimilarity_unit_witness :
    cosineSimilarity [1] [1] true = dotList [1] [1] ∧
    -1 ≤ dotList ([1] : List ℝ) [1] ∧ dotList ([1] : List ℝ) [1] ≤ 1 :=
  cosineSimilarity_unit_spec [1] [1] true rfl (by simp)
    (by norm_num [dotList]) (by norm_num [dotList])

end CompanionBot

namespace CompanionBot

/-! ## §4.C Hybrid search rank fusion — `combineWithRRF`
(src/memory/embeddings.ts 1046–1102) and `calculateRRFScore` (918–927).

JS `Map` is modelled by an association list with `set` semantics: an update
keeps the key's original position (JS maps iterate in first-insertion
order); `Array.prototype.sort` is stable (ES2019), modelled by a stable
insertion sort. -/

/-- One semantic search result. -/
structure SearchResult where
  text : String
  source : String
  score : ℚ
deriving DecidableEq

/-- One keyword (FTS/BM25) search result, as `combineWithRRF` consumes it. -/
structure FtsSearchResult where
  text : String
  source : String
  score : ℚ
deriving DecidableEq

/-- One fused result. -/
structure HybridSearchResult where
  text : String
  source : String
  score : ℚ
  vectorScore : Option ℚ
  keywordScore : Option ℚ
  rrfScore : Option ℚ
deriving DecidableEq

/-- JS `Map.prototype.set`: update in place, or append a new entry. -/
def mapSet {β : Type} (m : List (String × β)) (k : String) (v : β) :
    List (String × β) :=
  if m.any (fun p => p.1 = k) then
    m.map (fun p => if p.1 = k then (k, v) else p)
  else
    m ++ [(k, v)]

/-- JS `Map.prototype.get`. -/
def mapGet {β : Type} (m : List (String × β)) (k : String) : Option β :=
  (m.find? (fun p => p.1 = k)).map (fun p => p.2)

/-- `makeKey` (src/memory/embeddings.ts 935): `source + ":" + text.slice(0, 100)`. -/
def makeKey (text source : String) : String :=
  source ++ ":" ++ jsSlice0 text 100

/-- Model of `calculateRRFScore`: `Σ 1/(k + rank)` over the ranks present. -/
def calculateRRFScore (vectorRank keywordRank : Option Nat) (k : ℚ) : ℚ :=
  (match vectorRank with
   | some r => 1 / (k + r)
   | none => 0) +
  (match keywordRank with
   | some r => 1 / (k + r)
   | none => 0)

/-- A deduplicated entry of `allResults` before scoring. -/
structure RRFEntry where
  text : String
  source : String
  vectorScore : Option ℚ
  keywordScore : Option ℚ

/-- Stable insert for the descending sort by `score`. -/
def insertByScoreDesc (r : HybridSearchResult) :
    List HybridSearchResult → List HybridSearchResult
  | [] => [r]
  | s :: t =>
    if s.score ≤ r.score then r :: s :: t else s :: insertByScoreDesc r t

/-- JS stable `sort((a, b) => b.score - a.score)`. -/
def jsSortByScoreDesc (l : List HybridSearchResult) : List HybridSearchResult :=
  l.foldr insertByScoreDesc []

/-- The `vectorRankMap` of `combineWithRRF`: key → rank `i + 1` (later
duplicates overwrite). -/
def vectorRankMapOf (vectorResults : List SearchResult) : List (String × Nat) :=
  vectorResults.enum.foldl
    (fun m p => mapSet m (makeKey p.2.text p.2.source) (p.1 + 1)) []

/-- The `keywordRankMap` of `combineWithRRF`. -/
def keywordRankMapOf (keywordResults : List FtsSearchResult) :
    List (String × Nat) :=
  keywordResults.enum.foldl
    (fun m p => mapSet m (makeKey p.2.text p.2.source) (p.1 + 1)) []

/-- The `allResults` map of `combineWithRRF`: all unique results in
first-insertion order — vector results first, then keyword results either
merged into an existing entry (setting `keywordScore`) or appended. -/
def allResultsOf (vectorResults : List SearchResult)
    (keywordResults : List FtsSearchResult) : List (String × RRFEntry) :=
  keywordResults.foldl
    (fun m r =>
      let key := makeKey r.text r.source
      match mapGet m key with
      | some e => mapSet m key ⟨e.text, e.source, e.vectorScore, some r.score⟩
      | none => mapSet m key ⟨r.text, r.source, none, some r.score⟩)
    (vectorResults.foldl
      (fun m r => mapSet m (makeKey r.text r.source)
        ⟨r.text, r.source, some r.score, none⟩) [])

/-- The `results` array of `combineWithRRF`: one `HybridSearchResult` per
`allResults` entry, scored by `calculateRRFScore` with the default k = 60. -/
def scoredResultsOf (vectorResults : List SearchResult)
    (keywordResults : List FtsSearchResult) : List HybridSearchResult :=
  (allResultsOf vectorResults keywordResults).map (fun p =>
    { text := p.2.text, source := p.2.source,
      score := calculateRRFScore
        (mapGet (vectorRankMapOf vectorResults) p.1)
        (mapGet (keywordRankMapOf keywordResults) p.1) 60,
      vectorScore := p.2.vectorScore, keywordScore := p.2.keywordScore,
      rrfScore := some (calculateRRFScore
        (mapGet (vectorRankMapOf vectorResults) p.1)
        (mapGet (keywordRankMapOf keywordResults) p.1) 60 ) })

/-- Model of `combineWithRRF` (src/memory/embeddings.ts 1046–1102): rank maps
from both result lists, the deduplicated `allResults`, RRF scores, then the
stable descending sort and `slice(0, topK)`. -/
def combineWithRRF (vectorResults : List SearchResult)
    (keywordResults : List FtsSearchResult) (topK : Nat) :
    List HybridSearchResult :=
  (jsSortByScoreDesc (scoredResultsOf vectorResults keywordResults)).take topK

/-- The C5 scenario's vector results, in rank order A, B, C. -/
def vResultsC5 : List SearchResult :=
  [⟨"A", "s", 9/10⟩, ⟨"B", "s", 8/10⟩, ⟨"C", "s", 7/10⟩]

/-- The C5 scenario's keyword results, in rank order C, D, A. -/
def kResultsC5 : List FtsSearchResult :=
  [⟨"C", "s", 1⟩, ⟨"D", "s", 2⟩, ⟨"A", "s", 3⟩]

/-- The four fused results of the C5 scenario before sorting, with their
unevaluated RRF scores: A (ranks 1/3), B (rank 2, vector only),
C (ranks 3/1), D (rank 2, keyword only), in first-insertion order. -/
theorem scoredResultsC5 :
    scoredResultsOf vResultsC5 kResultsC5 =
      [{ text := "A", source := "s",
         score := calculateRRFScore (some 1) (some 3) 60,
         vectorScore := some (9/10), keywordScore := some 3,
         rrfScore := some (calculateRRFScore (some 1) (some 3) 60) },
       { text := "B", source := "s",
         score := calculateRRFScore (some 2) none 60,
         vectorScore := some (8/10), keywordScore := none,
         rrfScore := some (calculateRRFScore (some 2) none 60) },
       { text := "C", source := "s",
         score := calculateRRFScore (some 3) (some 1) 60,
         vectorScore := some (7/10), keywordScore := some 1,
         rrfScore := some (calculateRRFScore (some 3) (some 1) 60) },
       { text := "D", source := "s",
         score := calculateRRFScore none (some 2) 60,
         vectorScore := none, keywordScore := some 2,
         rrfScore := some (calculateRRFScore none (some 2) 60) }] := rfl

/-- RRF score of a result ranked 1 and 3 by the two searches. -/
theorem rrfScore_1_3 : calculateRRFScore (some 1) (some 3) 60 = 1/61 + 1/63 := by
  norm_num [calculateRRFScore]

/-- RRF score of a result ranked 3 and 1 by the two searches. -/
theorem rrfScore_3_1 : calculateRRFScore (some 3) (some 1) 60 = 1/61 + 1/63 := by
  norm_num [calculateRRFScore]

/-- RRF score of a result ranked 2 by the vector search only. -/
theorem rrfScore_2_none : calculateRRFScore (some 2) none 60 = 1/62 := by
  norm_num [calculateRRFScore]

/-- RRF score of a result ranked 2 by the keyword search only. -/
theorem rrfScore_none_2 : calculateRRFScore none (some 2) 60 = 1/62 := by
  norm_num [calculateRRFScore]

/-- The C5 fused list with evaluated scores, sorted and truncated. -/
theorem combineWithRRF_C5_eval :
    (combineWithRRF vResultsC5 kResultsC5 5).map (fun r => (r.text, r.score))
      = [("A", 1/61 + 1/63), ("C", 1/61 + 1/63),
         ("B", 1/62), ("D", 1/62)] := by
  rw [combineWithRRF, scoredResultsC5, rrfScore_1_3, rrfScore_3_1,
    rrfScore_2_none, rrfScore_none_2]
  norm_num [jsSortByScoreDesc, insertByScoreDesc]

/-- C5 counterexample: with V = [A,B,C] and K = [C,D,A], RRF (k = 60) does
not return C first — A and C tie at `1/61 + 1/63` and the stable sort keeps
A (inserted first, from the vector list) ahead of C. -/
theorem combineWithRRF_claim_counterexample :
    ((combineWithRRF vResultsC5 kResultsC5 5).map
        (fun r => r.text)).head? ≠ some "C" ∧
    (combineWithRRF vResultsC5 kResultsC5 5).map (fun r => r.text)
      = ["A", "C", "B", "D"] := by
  have h : (combineWithRRF vResultsC5 kResultsC5 5).map (fun r => r.text)
      = ["A", "C", "B", "D"] := by
    have h2 := congrArg (List.map Prod.fst) combineWithRRF_C5_eval
    simpa [Function.comp] using h2
  refine ⟨?_, h⟩
  rw [h]
  simp

/-- C5 (amended): in the scenario the fused scores are
`score(A) = score(C) = 1/61 + 1/63` and `score(B) = score(D) = 1/62`, and the
stable descending sort returns A, then C, then B, then D (ties broken by
insertion order: vector results precede keyword-only ones). -/
theorem combineWithRRF_scenario_spec :
    (combineWithRRF vResultsC5 kResultsC5 5).map (fun r => (r.text, r.score))
      = [("A", 1/61 + 1/63), ("C", 1/61 + 1/63),
         ("B", 1/62), ("D", 1/62)] :=
  combineWithRRF_C5_eval

end CompanionBot

namespace CompanionBot

/-! ## §4.C Ingest — `splitIntoChunks` (src/memory/embeddings.ts 421–475)

`text.split(/(?=^## )/m)` splits before every line that begins with `"## "`
(a zero-width match at index 0 produces no leading empty section), keeping
the line-terminating `"\n"` with the preceding section.  Sections are only
ever consumed through `.trim()`, so they are modelled as the `"\n"`-join of
their lines — the dropped trailing newline is whitespace the `trim` removes
anyway.  All lengths are JS lengths (UTF-16 code units). -/

/-- `MEMORY.MIN_CHUNK_LENGTH` (src/config/constants.ts). -/
def MIN_CHUNK_LENGTH : Nat := 20

/-- `MEMORY.MAX_CHUNK_LENGTH` (src/config/constants.ts). -/
def MAX_CHUNK_LENGTH : Nat := 500

/-- JS `String.prototype.trim`. -/
def jsTrim (s : String) : String :=
  ⟨((s.toList.dropWhile jsIsWhitespace).reverse.dropWhile
      jsIsWhitespace).reverse⟩

/-- JS `ToInt32`: wrap an exact integer into `[−2³¹, 2³¹)`. -/
def toInt32 (x : Int) : Int :=
  (x + 2 ^ 31) % 2 ^ 32 - 2 ^ 31

/-- `simpleHash` (src/memory/embeddings.ts 318–326) as a 32-bit integer:
`hash = ((hash << 5) - hash) + charCode; hash = hash & hash` per UTF-16
code unit. -/
def simpleHashInt (text : String) : Int :=
  (utf16Units text).foldl
    (fun hash c => toInt32 (toInt32 (hash * 32) - hash + c)) 0

/-- A hexadecimal digit list rendered as a string. -/
def natHex (n : Nat) : String :=
  ⟨Nat.toDigits 16 n⟩

/-- JS `Number.prototype.toString(16)` on an int32 value. -/
def jsHexString (n : Int) : String :=
  if n < 0 then "-" ++ natHex n.natAbs else natHex n.toNat

/-- The chunk hash actually stored (`simpleHash(text)`). -/
def simpleHash (text : String) : String :=
  jsHexString (simpleHashInt text)

/-- A memory chunk (src/memory/embeddings.ts `MemoryChunk`, sans the
optional embedding, which `splitIntoChunks` never sets). -/
structure MemoryChunk where
  id : String
  text : String
  source : String
  hash : String
  timestamp : Int

/-- A chunk as `splitIntoChunks` pushes it: id `source:index`, content hash,
source file mtime. -/
def mkChunk (source : String) (idx : Nat) (text : String)
    (timestamp : Int) : MemoryChunk :=
  ⟨source ++ ":" ++ toString idx, text, source, simpleHash text, timestamp⟩

/-- JS `s.split("\n")`, structurally (empty pieces kept; `"" → [""]`). -/
def splitNewlineAux : List Char → List Char → List String
  | acc, [] => [⟨acc.reverse⟩]
  | acc, c :: cs =>
    if c = '\n' then ⟨acc.reverse⟩ :: splitNewlineAux [] cs
    else splitNewlineAux (c :: acc) cs

/-- JS `s.split("\n")`. -/
def jsSplitNewline (s : String) : List String :=
  splitNewlineAux [] s.toList

/-- Does a line begin with `"## "` (the `^## ` lookahead)? -/
def isHeaderLine (s : String) : Bool :=
  match s.toList with
  | '#' :: '#' :: ' ' :: _ => true
  | _ => false

/-- Group the lines of the file into the sections of
`text.split(/(?=^## )/m)`: a new section starts at every non-initial line
beginning with `"## "`. -/
def groupSectionsAux : List String → List String → List (List String)
  | acc, [] => [acc.reverse]
  | acc, l :: ls =>
    if isHeaderLine l then acc.reverse :: groupSectionsAux [l] ls
    else groupSectionsAux (l :: acc) ls

/-- The sections of a source file, joined back from their lines. -/
def sectionsOf (text : String) : List String :=
  match jsSplitNewline text with
  | [] => []
  | l :: ls => (groupSectionsAux [l] ls).map (String.intercalate "\n")

/-- The `for (const line of lines)` loop splitting an over-long section at
line boundaries, plus the final flush: `cur` is `currentChunk`, `idx` the
running chunk index. -/
def longSplit (source : String) (timestamp : Int) :
    List String → String → Nat → List MemoryChunk × Nat
  | [], cur, idx =>
    if jsTrim cur ≠ "" then
      ([mkChunk source idx (jsTrim cur) timestamp], idx + 1)
    else ([], idx)
  | line :: rest, cur, idx =>
    if MAX_CHUNK_LENGTH < jsLength cur + jsLength line then
      if jsTrim cur ≠ "" then
        let c := mkChunk source idx (jsTrim cur) timestamp
        let p := longSplit source timestamp rest line (idx + 1)
        (c :: p.1, p.2)
      else
        longSplit source timestamp rest line idx
    else
      longSplit source timestamp rest (cur ++ "\n" ++ line) idx

/-- The per-section loop of `splitIntoChunks`: drop empty/short sections,
emit in-range sections verbatim, line-split over-long ones. -/
def splitIntoChunksGo (source : String) (timestamp : Int) :
    List String → Nat → List MemoryChunk
  | [], _ => []
  | sec :: rest, idx =>
    let trimmed := jsTrim sec
    if trimmed = "" ∨ jsLength trimmed < MIN_CHUNK_LENGTH then
      splitIntoChunksGo source timestamp rest idx
    else if MAX_CHUNK_LENGTH < jsLength trimmed then
      let p := longSplit source timestamp (jsSplitNewline trimmed) "" idx
      p.1 ++ splitIntoChunksGo source timestamp rest p.2
    else
      mkChunk source idx trimmed timestamp ::
        splitIntoChunksGo source timestamp rest (idx + 1)

/-- Model of `splitIntoChunks` (src/memory/embeddings.ts 421–475). -/
def splitIntoChunks (text source : String) (timestamp : Int) :
    List MemoryChunk :=
  splitIntoChunksGo source timestamp (sectionsOf text) 0

set_option maxRecDepth 100000

/-- A single 501-character line. -/
def longLineText : String := String.mk (List.replicate 501 'a')

/-- C8 counterexample: a source that is one 501-character line produces a
single chunk of 501 characters — the line-boundary split cannot shorten a
line that alone exceeds `MAX_CHUNK_LENGTH`, so the `[20, 500]` bound fails. -/
theorem splitIntoChunks_claim_counterexample :
    (splitIntoChunks longLineText "memo" 0).map (fun c => jsLength c.text)
      = [501] ∧
    ¬ (∀ c ∈ splitIntoChunks longLineText "memo" 0,
        MIN_CHUNK_LENGTH ≤ jsLength c.text ∧
        jsLength c.text ≤ MAX_CHUNK_LENGTH) := by
  constructor
  · decide
  · decide

/-- C8 (amended): sections shorter than `MIN_CHUNK_LENGTH` after trimming
are dropped, and when every section of the source trims to at most
`MAX_CHUNK_LENGTH` characters, every produced chunk has text length in
`[MIN_CHUNK_LENGTH, MAX_CHUNK_LENGTH]`; the bounds are not guaranteed for
sources with an over-long section (see the counterexample). -/
theorem splitIntoChunks_bounds (text source : String) (timestamp : Int)
    (hshort : ∀ s ∈ sectionsOf text, jsLength (jsTrim s) ≤ MAX_CHUNK_LENGTH) :
    ∀ c ∈ splitIntoChunks text source timestamp,
      MIN_CHUNK_LENGTH ≤ jsLength c.text ∧
      jsLength c.text ≤ MAX_CHUNK_LENGTH := by
  rw [splitIntoChunks]
  have main : ∀ (secs : List String) (idx : Nat),
      (∀ s ∈ secs, jsLength (jsTrim s) ≤ MAX_CHUNK_LENGTH) →
      ∀ c ∈ splitIntoChunksGo source timestamp secs idx,
        MIN_CHUNK_LENGTH ≤ jsLength c.text ∧
        jsLength c.text ≤ MAX_CHUNK_LENGTH := by
    intro secs
    induction secs with
    | nil => intro idx _ c hc; simp [splitIntoChunksGo] at hc
    | cons sec rest ih =>
      intro idx hbound c hc
      rw [splitIntoChunksGo] at hc
      by_cases h1 : jsTrim sec = "" ∨ jsLength (jsTrim sec) < MIN_CHUNK_LENGTH
      · rw [if_pos h1] at hc
        exact ih idx (fun s hs => hbound s (List.mem_cons_of_mem _ hs)) c hc
      · rw [if_neg h1] at hc
        have hle : jsLength (jsTrim sec) ≤ MAX_CHUNK_LENGTH :=
          hbound sec (List.mem_cons_self _ _)
        rw [if_neg (by omega)] at hc
        rcases List.mem_cons.mp hc with hhead | htail
        · push_neg at h1
          subst hhead
          exact ⟨by simpa [mkChunk] using h1.2, by simpa [mkChunk] using hle⟩
        · exact ih (idx + 1)
            (fun s hs => hbound s (List.mem_cons_of_mem _ hs)) c htail
  exact main (sectionsOf text) 0 hshort

/-- A well-formed little memory file for the C8 witness. -/
def niceText : String := "## note\nthe user likes green tea"

/-- C8 witness: every section of `niceText` trims to ≤ 500 chars, and its
single chunk is 31 characters long — inside `[20, 500]`. -/
theorem splitIntoChunks_bounds_witness :
    (∀ s ∈ sectionsOf niceText, jsLength (jsTrim s) ≤ MAX_CHUNK_LENGTH) ∧
    ∀ c ∈ splitIntoChunks niceText "memo" 0,
      MIN_CHUNK_LENGTH ≤ jsLength c.text ∧
      jsLength c.text ≤ MAX_CHUNK_LENGTH :=
  ⟨by decide, splitIntoChunks_bounds niceText "memo" 0 (by decide)⟩

end CompanionBot


namespace CompanionBot

/-! ## §4.H Cron store (src/cron/store.ts)

The clock, the `Intl` timezone tables and `Date` serialization are external:
a `CronEnv` carries the formatted "now" in the target timezone
(`getTimeInTimezone(now, tz)`), the instant `createDateInTimezone` resolves a
wall-clock tuple to, the current epoch milliseconds, and `toISOString`.
Everything else — field parsing, the minute walk, the store operations — is
modelled from the source.

The source's step loops `for (let i = lo; i <= hi; i += step)` never
terminate when `step ≤ 0` (e.g. the expression `"*/0 * * * *"`), so the
functions on that path are partial: they return an `Option`, and `none`
means the source call does not return.  A store operation that would run
such a parse is itself `none` — it hangs and persists nothing. -/

/-- JS `s.split(sep)` for a one-character separator (empty pieces kept). -/
def splitCharAux (sep : Char) : List Char → List Char → List String
  | acc, [] => [⟨acc.reverse⟩]
  | acc, c :: cs =>
    if c = sep then ⟨acc.reverse⟩ :: splitCharAux sep [] cs
    else splitCharAux sep (c :: acc) cs

/-- JS `s.split(sep)` on strings, one-character separator. -/
def jsSplitChar (sep : Char) (s : String) : List String :=
  splitCharAux sep [] s.toList

/-- JS `Number(s)` restricted to integer syntax: empty/whitespace is 0, an
optional sign followed by digits is that integer, anything else is NaN
(`none`).  The cron fields only ever hold integer text. -/
def jsNumber (s : String) : Option Int :=
  let t := (jsTrim s).toList
  if t = [] then some 0
  else
    let signAndRest : Int × List Char :=
      match t with
      | '-' :: r => (-1, r)
      | '+' :: r => (1, r)
      | r => (1, r)
    if signAndRest.2 ≠ [] ∧ signAndRest.2.all Char.isDigit then
      some (signAndRest.1 *
        (signAndRest.2.foldl (fun acc c => acc * 10 + (c.toNat - '0'.toNat)) 0 : Nat))
    else none

/-- `for (let i = lo; i <= hi; i++) values.push(i)`. -/
def intRange (lo hi : Int) : List Int :=
  (List.range (hi + 1 - lo).toNat).map (fun k => lo + k)

/-- `for (let i = lo; i <= hi; i += step)`: the produced values for a
positive step; for `step ≤ 0` the source loop never terminates, so the
result is `none`. -/
def stepRange (lo hi step : Int) : Option (List Int) :=
  if 0 < step then
    some (((List.range ((hi - lo) / step).toNat.succ).map
      (fun k => lo + step * k)).filter (fun v => v ≤ hi))
  else none

/-- Model of `parseCronField` (src/cron/store.ts 526–568): `*`, `*/n`
(returned unfiltered, `[min]` when the step is NaN), and comma-separated
parts — ranges `a-b`, stepped ranges `a-b/n`, single values — filtered to
`[min, max]`.  `none` when a step loop with `step ≤ 0` makes the source
call diverge (divergence inside the comma loop is modelled by `mapM`,
which is `none` as soon as any part is). -/
def parseCronField (field : String) (lo hi : Int) : Option (List Int) :=
  if field = "*" then some (intRange lo hi)
  else if (jsSlice0 field 2) = "*/" then
    match jsParseInt ⟨field.toList.drop 2⟩ with
    | some step => stepRange lo hi step
    | none => some (if lo ≤ hi then [lo] else [])
  else
    ((jsSplitChar ',' field).mapM (fun part =>
      if jsIncludes part "-" then
        some (
          match jsSplitChar '-' part with
          | st :: en :: _ =>
            match jsNumber st, jsNumber en with
            | some a, some b => intRange a b
            | _, _ => []
          | _ => [])
      else if jsIncludes part "/" then
        match jsSplitChar '/' part with
        | range :: stepStr :: _ =>
          let bounds : Int × Int :=
            if jsIncludes range "-" then
              match jsSplitChar '-' range with
              | rs :: re :: _ =>
                match jsNumber rs, jsNumber re with
                | some a, some b => (a, b)
                | _, _ => (lo, hi)
              | _ => (lo, hi)
            else (lo, hi)
          match jsParseInt stepStr with
          | some step => stepRange bounds.1 bounds.2 step
          | none => some (if bounds.1 ≤ bounds.2 then [bounds.1] else [])
        | _ => some []
      else
        some (
          match jsParseInt part with
          | some v => [v]
          | none => []))).map
      (fun ls => ls.flatten.filter (fun v => lo ≤ v ∧ v ≤ hi))

/-- A wall-clock tuple in the target timezone, as `getTimeInTimezone`
produces it and the search loop advances it. -/
structure DateTuple where
  year : Int
  month : Int
  day : Int
  hour : Int
  minute : Int
  dayOfWeek : Int
deriving DecidableEq

/-- The external date/timezone context of one cron computation. -/
structure CronEnv where
  current : DateTuple
  toInstantMs : DateTuple → Int
  nowMs : Int
  isoOf : Int → String

/-- Is the year a Gregorian leap year (JS `Date` arithmetic)? -/
def isLeapYear (y : Int) : Bool :=
  (y % 4 = 0 ∧ y % 100 ≠ 0) ∨ y % 400 = 0

/-- `getDaysInMonth` (src/cron/store.ts 519–521): days of the 1-based month. -/
def getDaysInMonth (year month : Int) : Int :=
  if month = 2 then (if isLeapYear year then 29 else 28)
  else if month = 4 ∨ month = 6 ∨ month = 9 ∨ month = 11 then 30
  else 31

/-- One minute step of the search loop, with hour/day/month/year carry. -/
def advanceMinute (d : DateTuple) : DateTuple :=
  let minute := d.minute + 1
  if 59 < minute then
    let hour := d.hour + 1
    if 23 < hour then
      let day := d.day + 1
      let dayOfWeek := (d.dayOfWeek + 1) % 7
      if getDaysInMonth d.year d.month < day then
        let month := d.month + 1
        if 12 < month then ⟨d.year + 1, 1, 1, 0, 0, dayOfWeek⟩
        else ⟨d.year, month, 1, 0, 0, dayOfWeek⟩
      else ⟨d.year, d.month, day, 0, 0, dayOfWeek⟩
    else ⟨d.year, d.month, d.day, hour, 0, d.dayOfWeek⟩
  else ⟨d.year, d.month, d.day, d.hour, minute, d.dayOfWeek⟩

/-- The minute-walk of `calculateCronNextRun`: advance (except on the first
iteration), test all five fields, skip the current minute, and accept the
first matching instant that lies strictly in the future. -/
def cronSearchGo (tm th td tmo tdw : List Int) (env : CronEnv) :
    Nat → Nat → DateTuple → Option String
  | 0, _, _ => none
  | fuel + 1, i, d0 =>
    let d := if i = 0 then d0 else advanceMinute d0
    if tmo.contains d.month ∧ td.contains d.day ∧ tdw.contains d.dayOfWeek ∧
        th.contains d.hour ∧ tm.contains d.minute ∧ i ≠ 0 then
      let t := env.toInstantMs d
      if env.nowMs < t then some (env.isoOf t)
      else cronSearchGo tm th td tmo tdw env fuel (i + 1) d
    else cronSearchGo tm th td tmo tdw env fuel (i + 1) d

/-- The search bound: `366 * 24 * 60` minutes. -/
def CRON_MAX_ITERATIONS : Nat := 366 * 24 * 60

/-- The five fields of a cron expression, when it splits into exactly five. -/
def cronFields (expression : String) :
    Option (String × String × String × String × String) :=
  match jsSplitChar ' ' expression with
  | [a, b, c, d, e] => some (a, b, c, d, e)
  | _ => none

/-- Model of `calculateCronNextRun` (src/cron/store.ts 429–514).  The outer
`Option` is termination: `none` when a field's step loop diverges (the
source then never returns).  When the call returns, the inner value is
`undefined` unless the expression has five fields and the walk finds a
strictly future match within a year.  (Which of the five field parses
diverges first is unobservable, so the five are matched together.) -/
def calculateCronNextRun (expression : String) (env : CronEnv) :
    Option (Option String) :=
  match cronFields expression with
  | none => some none
  | some (me, he, de, mo, dw) =>
    match parseCronField me 0 59, parseCronField he 0 23,
        parseCronField de 1 31, parseCronField mo 1 12,
        parseCronField dw 0 6 with
    | some tm, some th, some td, some tmo, some tdw =>
      some (cronSearchGo tm th td tmo tdw env CRON_MAX_ITERATIONS 0
        env.current)
    | _, _, _, _, _ => none

end CompanionBot

namespace CompanionBot

/-- A schedule variant (src/cron/types.ts via its uses in store.ts). -/
inductive Schedule where
  | at (atMs : Int)
  | every (everyMs : Option Int) (intervalMs : Option Int) (startMs : Option Int)
  | cron (expression : String) (timezone : Option String)
deriving DecidableEq

/-- A persisted cron job, with the fields store.ts reads and writes. -/
structure CronJob where
  id : String
  chatId : Int
  name : String
  schedule : Option Schedule
  cronExpr : String
  timezone : Option String
  message : String
  enabled : Bool
  createdAt : String
  lastRun : Option String
  nextRun : Option String
  runCount : Nat
  maxRuns : Option Nat
deriving DecidableEq

/-- A job-creation request (`NewCronJob`): a job without id/createdAt, with
an optional initial `runCount`. -/
structure NewCronJob where
  chatId : Int
  name : String
  schedule : Option Schedule
  cronExpr : String
  timezone : Option String
  message : String
  enabled : Bool
  runCount : Option Nat
  maxRuns : Option Nat
deriving DecidableEq

/-- The first truthy of `schedule.everyMs || schedule.intervalMs || 60000`
(0 and absence are falsy). -/
def firstTruthyInterval (everyMs intervalMs : Option Int) : Int :=
  match everyMs with
  | some v => if v ≠ 0 then v else
      match intervalMs with
      | some w => if w ≠ 0 then w else 60000
      | none => 60000
  | none =>
    match intervalMs with
    | some w => if w ≠ 0 then w else 60000
    | none => 60000

/-- Model of `calculateNextRun` (src/cron/store.ts 275–300); the outer
`Option` is termination, inherited from `calculateCronNextRun` on the cron
variant (`at` and `every` always return). -/
def calculateNextRun (schedule : Schedule) (env : CronEnv) :
    Option (Option String) :=
  match schedule with
  | .at atMs =>
    some (if env.nowMs < atMs then some (env.isoOf atMs) else none)
  | .every everyMs intervalMs startMs =>
    let interval := firstTruthyInterval everyMs intervalMs
    let startAt : Int :=
      match startMs with
      | some s => if s ≠ 0 then s else env.nowMs
      | none => env.nowMs
    some (if env.nowMs < startAt then some (env.isoOf startAt)
      else some (env.isoOf (env.nowMs + interval)))
  | .cron expression _ => calculateCronNextRun expression env

/-- The `nextRun` a job gets on creation or re-scheduling: from its
`schedule` when present, else from its bare `cronExpr`; `none` when the
computation diverges. -/
def recomputeNextRun (schedule : Option Schedule) (cronExpr : String)
    (env : CronEnv) : Option (Option String) :=
  match schedule with
  | some s => calculateNextRun s env
  | none => calculateCronNextRun cronExpr env

/-- Model of `addJob` (src/cron/store.ts 157–181): build the job (fresh id,
`createdAt`, `runCount ?? 0`, computed `nextRun`), push it, save.  Returns
the saved job list and the job; `none` when the `nextRun` computation
diverges — `addJob` then never returns and persists nothing. -/
def addJob (jobs : List CronJob) (newJob : NewCronJob) (id createdAt : String)
    (env : CronEnv) : Option (List CronJob × CronJob) :=
  (recomputeNextRun newJob.schedule newJob.cronExpr env).map (fun nr =>
    let job : CronJob :=
      ⟨id, newJob.chatId, newJob.name, newJob.schedule, newJob.cronExpr,
        newJob.timezone, newJob.message, newJob.enabled, createdAt, none,
        nr, newJob.runCount.getD 0, newJob.maxRuns⟩
    (jobs ++ [job], job))

/-- Replace the first list element satisfying the predicate (the in-place
mutation of the job object `find` returned). -/
def updateFirst (p : CronJob → Bool) (f : CronJob → CronJob) :
    List CronJob → List CronJob
  | [] => []
  | j :: js => if p j then f j :: js else j :: updateFirst p f js

/-- The mutation `markJobExecuted` applies to the found job; `none` when
re-computing `nextRun` diverges. -/
def markExecutedUpdate (nowIso : String) (env : CronEnv) (job : CronJob) :
    Option CronJob :=
  let runCount := job.runCount + 1
  match job.maxRuns with
  | some m =>
    if m ≤ runCount then
      some { job with
        lastRun := some nowIso
        runCount := runCount
        enabled := false
        nextRun := none }
    else
      (recomputeNextRun job.schedule job.cronExpr env).map (fun nr =>
        { job with
          lastRun := some nowIso
          runCount := runCount
          nextRun := nr })
  | none =>
    (recomputeNextRun job.schedule job.cronExpr env).map (fun nr =>
      { job with
        lastRun := some nowIso
        runCount := runCount
        nextRun := nr })

/-- Model of `markJobExecuted` (src/cron/store.ts 245–270).  The boolean
records whether the store was written (`saveJobsInternal` ran): the function
returns before saving when no job has the id.  `none` when the found job's
`nextRun` re-computation diverges (then nothing is saved either). -/
def markJobExecuted (jobs : List CronJob) (jobId : String) (nowIso : String)
    (env : CronEnv) : Option (List CronJob × Bool) :=
  match jobs.find? (fun j => j.id = jobId) with
  | none => some (jobs, false)
  | some job0 =>
    (markExecutedUpdate nowIso env job0).map (fun j =>
      (updateFirst (fun j => j.id = jobId) (fun _ => j) jobs, true))

end CompanionBot

namespace CompanionBot

/-- C10: `markJobExecuted` on a jobId that no stored job carries returns
before saving: the job file is not written and the stored jobs — all their
fields, in particular `runCount`, `lastRun`, `nextRun` and `enabled` — are
exactly what they were. -/
theorem markJobExecuted_frame (jobs : List CronJob) (jobId nowIso : String)
    (env : CronEnv) (h : ∀ j ∈ jobs, j.id ≠ jobId) :
    markJobExecuted jobs jobId nowIso env = some (jobs, false) := by
  rw [markJobExecuted]
  have hf : jobs.find? (fun j => j.id = jobId) = none :=
    List.find?_eq_none.mpr (fun j hj => by simp [h j hj])
  rw [hf]

/-- A stored job for the C10 witness. -/
def jobC10 : CronJob :=
  { id := "job-a", chatId := 1, name := "morning", schedule := none,
    cronExpr := "0 9 * * *", timezone := some "Asia/Seoul",
    message := "hello", enabled := true,
    createdAt := "2025-01-01T00:00:00.000Z", lastRun := none,
    nextRun := some "2025-01-02T00:00:00.000Z", runCount := 0,
    maxRuns := none }

/-- A concrete external date context. -/
def envC10 : CronEnv :=
  ⟨⟨2025, 1, 1, 12, 0, 3⟩, fun _ => 0, 1735689600000,
    fun _ => "2025-01-01T00:00:00.000Z"⟩

/-- C10 witness: marking an absent id leaves the single stored job — and
the whole store — untouched, and writes nothing. -/
theorem markJobExecuted_frame_witness :
    markJobExecuted [jobC10] "job-b" "2025-01-01T12:00:00.000Z" envC10
      = some ([jobC10], false) :=
  markJobExecuted_frame [jobC10] "job-b" "2025-01-01T12:00:00.000Z" envC10
    (by decide)

/-- A creation request whose cron expression has only four fields. -/
def badNewJobC6 : NewCronJob :=
  { chatId := 1, name := "bad", schedule := none, cronExpr := "* * * *",
    timezone := none, message := "hi", enabled := true, runCount := none,
    maxRuns := none }

/-- A zero step (`"*/0 * * * *"`) makes the source's field-parse loop run
forever: the model's `addJob` is `none` there — it never returns and
persists nothing. -/
theorem addJob_step_zero_diverges :
    addJob [] { badNewJobC6 with cronExpr := "*/0 * * * *" } "job-3"
      "2025-01-01T00:00:00.000Z" envC10 = none := by
  decide

end CompanionBot
